import Mathlib

/-!
Shallow embedding of the vmrun supervisor (michael-yuji/vmrun) for checking
its natural-language specification: PCI slot allocation, the specification
compiler `VmSpec::build`, overlay merge `VmSpec::consume`, the memory and
PCI-slot parsers, precondition checks, and the supervisor loop.

Rust `u8`/`u32`/`usize` values are modelled as `Nat`; the source never relies
on wrap-around for the reachable states the claims are about.  Fallible Rust
code is modelled with `Except`/`Option`; a Rust panic is modelled with an
explicit `panicked` outcome.
-/

namespace Vmrun

/-- PCI slot triple, from `src/vm/mod.rs` (`PciSlot { bus, slot, func }`). -/
structure PciSlot where
  bus : Nat
  slot : Nat
  func : Nat
deriving DecidableEq, Repr

/-- `FormatError` from `src/spec/mod.rs` (payloads that no claim inspects are
dropped: `InvalidValue` carries a `ParseIntError`, `PciSlotValueOverflow`
carries component data). -/
inductive FormatError where
  | InvalidUnit (s : String)
  | InvalidValue
  | InvalidPciSlotRepr (s : String)
  | PciSlotValueOverflow
  | LpcSlotNotSatisfy
  | HostbridgeSlotNotSatisfy
  | RunOutOfSlots
  | ProfileNotFound
deriving DecidableEq, Repr

/-- `vec_exists` from `src/util/mod.rs`. -/
def vec_exists {α : Type} (xs : List α) (cond : α → Bool) : Bool :=
  match xs with
  | [] => false
  | x :: rest => if cond x then true else vec_exists rest cond

/-- `vec_sequence_map` from `src/util/mod.rs`. -/
def vec_sequence_map {α β ε : Type} (xs : List α) (f : α → Except ε β) :
    Except ε (List β) :=
  match xs with
  | [] => .ok []
  | x :: rest => do
    let b ← f x
    let bs ← vec_sequence_map rest f
    .ok (b :: bs)

/-- The stateful PCI slot generator from `src/spec/util.rs`. -/
structure PciSlotGenerator where
  bus : Nat
  slot : Nat
  skip : List PciSlot
deriving DecidableEq, Repr

/-- `PciSlotGenerator::build`. -/
def PciSlotGenerator.build (bus slot : Nat) (skip : List PciSlot) : PciSlotGenerator :=
  ⟨bus, slot, skip⟩

/-- `PciSlotGenerator::next_slot`, with explicit fuel for the recursion.  The
source recursion strictly decreases the measure `(255 - bus) * 32 + (32 - slot)`
on every reachable state, so any fuel above 8193 makes the fueled function agree
with the source on reachable states. -/
def nextSlotFuel : Nat → PciSlotGenerator → Option PciSlot × PciSlotGenerator
  | 0, g => (none, g)
  | fuel + 1, g =>
    if g.bus = 255 ∧ g.slot = 31 then (none, g)
    else if g.slot = 31 then nextSlotFuel fuel { g with bus := g.bus + 1, slot := 0 }
    else
      let ret : PciSlot := ⟨g.bus, g.slot, 0⟩
      let g2 : PciSlotGenerator := { g with slot := g.slot + 1 }
      if ret ∈ g.skip then nextSlotFuel fuel g2 else (some ret, g2)

/-- `PciSlotGenerator::next_slot`. -/
def PciSlotGenerator.next_slot (g : PciSlotGenerator) : Option PciSlot × PciSlotGenerator :=
  nextSlotFuel 8200 g

/-- The `while self.skip.contains(&slot)` loop of `try_take_specific_bus`.
The loop runs at most 32 iterations (it aborts at slot 31), so fuel 40 is
above its worst case. -/
def busLoop (skip : List PciSlot) (bus : Nat) : Nat → Nat → Option PciSlot
  | 0, _ => none
  | fuel + 1, s =>
    if (⟨bus, s, 0⟩ : PciSlot) ∈ skip then
      if s = 31 then none else busLoop skip bus fuel (s + 1)
    else some ⟨bus, s, 0⟩

/-- `PciSlotGenerator::try_take_specific_bus`. -/
def PciSlotGenerator.try_take_specific_bus (g : PciSlotGenerator) (bus : Nat) :
    Option PciSlot × PciSlotGenerator :=
  if g.bus > bus then (none, g)
  else if g.bus = bus then g.next_slot
  else
    match busLoop g.skip bus 40 0 with
    | none => (none, g)
    | some s => (some s, { g with skip := g.skip ++ [s] })

/-- `PciSlotGenerator::try_take_specific_bus_slot`. -/
def PciSlotGenerator.try_take_specific_bus_slot (g : PciSlotGenerator) (bus slot : Nat) :
    Option PciSlot × PciSlotGenerator :=
  if vec_exists g.skip (fun s => s.bus == bus && s.slot == slot)
      ∨ g.bus > bus ∨ (g.bus = bus ∧ g.slot > slot) then
    (none, g)
  else if g.bus = bus ∧ g.slot = slot then g.next_slot
  else
    (some ⟨bus, slot, 0⟩, { g with skip := g.skip ++ [(⟨bus, slot, 0⟩ : PciSlot)] })

/-! ## Numeric parsing (`src/util/mod.rs`) -/

/-- `char::to_digit` restricted to the radixes the source uses (≤ 16). -/
def digitVal (c : Char) : Option Nat :=
  if '0' ≤ c ∧ c ≤ '9' then some (c.toNat - '0'.toNat)
  else if 'a' ≤ c ∧ c ≤ 'f' then some (c.toNat - 'a'.toNat + 10)
  else if 'A' ≤ c ∧ c ≤ 'F' then some (c.toNat - 'A'.toNat + 10)
  else none

/-- `char::is_digit(radix)`. -/
def isDigitIn (c : Char) (radix : Nat) : Bool :=
  match digitVal c with
  | some d => d < radix
  | none => false

/-- `usize::from_str_radix` / `u8::parse` digit folding: all characters must be
digits of the radix and the string must be nonempty. -/
def parseNatBase (radix : Nat) (cs : List Char) : Option Nat :=
  match cs with
  | [] => none
  | _ =>
    cs.foldl (fun acc c =>
      match acc, digitVal c with
      | some a, some d => if d < radix then some (a * radix + d) else none
      | _, _ => none) (some 0)

/-- Rust `str::parse::<u8>` (optional leading plus sign, decimal digits,
value at most 255). -/
def parseU8 (cs0 : List Char) : Option Nat :=
  let cs := match cs0 with
    | '+' :: rest => rest
    | _ => cs0
  match parseNatBase 10 cs with
  | some v => if v ≤ 255 then some v else none
  | none => none

/-- Rust `str::split(sep)` on the character list: splitting the empty string
yields one empty component, and separators at the ends yield empty
components, exactly as in Rust. -/
def splitOnChar (sep : Char) : List Char → List (List Char)
  | [] => [[]]
  | c :: rest =>
    let r := splitOnChar sep rest
    if c = sep then [] :: r
    else
      match r with
      | [] => [[c]]
      | g :: gs => (c :: g) :: gs

/-- Outcome of Rust code that can also panic (used for `take_numeric`, whose
slice `&input[start..index]` panics when `start > index`). -/
inductive RustOutcome (α : Type) where
  | ok (a : α)
  | err (e : FormatError)
  | panicked
deriving DecidableEq, Repr

/-- The scanning loop of `take_numeric`: walks the characters keeping the
running count `index` of consumed digit characters, the `parsed_radix` flag and
the current `radix`, exactly as the source loop does.  Returns the final
`(index, radix)`. -/
def takeNumericLoop (parseRadix : Bool) :
    List Char → Nat → Bool → Nat → Nat × Nat
  | [], index, _, radix => (index, radix)
  | c :: rest, index, parsedRadix, radix =>
    let parsedRadix := if parseRadix ∧ index = 0 ∧ c = '0' then true else parsedRadix
    let radix :=
      if parseRadix ∧ index = 1 ∧ parsedRadix then
        if c = 'x' then 16
        else if c = 'b' then 2
        else if isDigitIn c 8 then 8
        else radix
      else radix
    if isDigitIn c radix then takeNumericLoop parseRadix rest (index + 1) parsedRadix radix
    else (index, radix)

/-- `take_numeric` from `src/util/mod.rs`.  After the scan the source computes
`start` from the radix and evaluates `&input[start..index]`: when
`start > index` (which happens for every `0x`/`0b` input, since the radix
letter itself is not a digit and stops the scan at `index = 1` while
`start = 2`) that slice panics in Rust; this is modelled by `panicked`. -/
def take_numeric (parseRadix : Bool) (input : List Char) : RustOutcome (Nat × List Char) :=
  let scan := takeNumericLoop parseRadix input 0 false 10
  let index := scan.1
  let radix := scan.2
  let start := if radix = 16 ∨ radix = 2 then 2 else if radix = 8 then 1 else 0
  if index < start then .panicked
  else
    match parseNatBase radix ((input.drop start).take (index - start)) with
    | some v => .ok (v, input.drop index)
    | none => .err FormatError.InvalidValue

/-- `parse_mem_in_kb` from `src/util/mod.rs`. -/
def parse_mem_in_kb (input : String) : RustOutcome Nat :=
  match take_numeric true input.toList with
  | .panicked => .panicked
  | .err e => .err e
  | .ok (value, rest) =>
    let r := String.mk rest
    if r = "K" ∨ r = "KB" ∨ r = "kb" ∨ r = "Kb" then .ok (value * 1)
    else if r = "M" ∨ r = "MB" ∨ r = "mb" ∨ r = "Mb" then .ok (value * 1024)
    else if r = "G" ∨ r = "GB" ∨ r = "gb" ∨ r = "Gb" then .ok (value * (1024 * 1024))
    else if r = "T" ∨ r = "TB" ∨ r = "tb" ∨ r = "Tb" then .ok (value * (1024 * 1024 * 1024))
    else .err (FormatError.InvalidUnit r)

/-- `MemorySpec` from `src/spec/mod.rs`. -/
structure MemorySpec where
  kb : Nat
deriving DecidableEq, Repr

/-- The JSON value forms accepted for `MemorySpec` (`Either<usize, String>`). -/
inductive MemoryJson where
  | int (n : Nat)
  | str (s : String)
deriving DecidableEq, Repr

/-- `Deserialize for MemorySpec` from `src/spec/mod.rs`: a bare integer `n`
becomes `n / 1000` kb, a string goes through `parse_mem_in_kb`. -/
def MemorySpec.deserialize (j : MemoryJson) : RustOutcome MemorySpec :=
  match j with
  | .int n => .ok ⟨n / 1000⟩
  | .str s =>
    match parse_mem_in_kb s with
    | .ok kb => .ok ⟨kb⟩
    | .err e => .err e
    | .panicked => .panicked

/-- `PciSlot::from_str` from `src/spec/mod.rs`.  Note the guard rejects
component counts of exactly 2 even though the match below has an arm for
them (that arm is unreachable in the source; the final catch-all models the
source's unreachable `todo!()`). -/
def PciSlot.from_str (s : String) : Except FormatError PciSlot :=
  let comps := splitOnChar ':' s.toList
  if comps.length > 3 ∨ comps.length = 2 then .error (.InvalidPciSlotRepr s)
  else
    match vec_sequence_map comps (fun m =>
      match parseU8 m with
      | some v => Except.ok v
      | none => Except.error (FormatError.InvalidPciSlotRepr s)) with
    | .error e => .error e
    | .ok nums =>
      match nums with
      | [a] => .ok ⟨0, a, 0⟩
      | [a, b] => .ok ⟨0, a, b⟩
      | [a, b, c] => .ok ⟨a, b, c⟩
      | _ => .error (.InvalidPciSlotRepr s)

/-! ## Device model (`src/vm/emulation.rs`, `src/spec/decoding.rs`) -/

/-- `NetBackend` (declared in the vm module; the variant set is used by
`src/spec/decoding.rs` and `src/vm/conditions.rs`). -/
inductive NetBackend where
  | Tap
  | Netgraph
  | Netmap
  | Vale
deriving DecidableEq, Repr

/-- Modelled from the spec: the display form of a `NetBackend` used in
`virtio-net,<name>,type=<kind>`; the `Display` impl is not under `src/`. -/
def NetBackend.show : NetBackend → String
  | .Tap => "tap"
  | .Netgraph => "netgraph"
  | .Netmap => "netmap"
  | .Vale => "vale"

structure VirtioNet where
  tpe : NetBackend
  name : String
  mtu : Option Nat
  mac : Option String
deriving DecidableEq, Repr

structure VirtioBlk where
  path : String
  nocache : Bool
  direct : Bool
  ro : Bool
  logical_sector_size : Option Nat
  physical_sector_size : Option Nat
  nodelete : Bool
deriving DecidableEq, Repr

structure AhciCd where
  path : String
  nmrr : Option Nat
  ser : Option String
  rev : Option String
  model : Option String
deriving DecidableEq, Repr

structure AhciHd where
  path : String
  nmrr : Option Nat
  ser : Option String
  rev : Option String
  model : Option String
deriving DecidableEq, Repr

inductive NvmeBackend where
  | Ram (mb : Nat)
  | Path (path : String)
deriving DecidableEq, Repr

structure Nvme where
  qsz : Option Nat
  ioslots : Option Nat
  sectsz : Option Nat
  ser : Option String
  eui64 : Option Nat
  dsm : Option String
  backend : NvmeBackend
deriving DecidableEq, Repr

structure VirtioConsole where
  ports : List String
deriving DecidableEq, Repr

structure PciPassthru where
  src : PciSlot
  rom : Option String
deriving DecidableEq, Repr

structure Framebuffer where
  host : String
  port : Option Nat
  w : Option Nat
  h : Option Nat
  vga : Option String
  wait : Bool
  password : Option String
deriving DecidableEq, Repr

/-- `RawEmulatedPci` as built by `src/spec/decoding.rs` (`{ value }`). -/
structure RawEmulatedPci where
  value : String
deriving DecidableEq, Repr

/-- The closed set of emulated-PCI devices a compiled `VmRun` can carry
(the concrete types behind `Box<dyn EmulatedPci>`). -/
inductive VmEmu where
  | virtioNet (x : VirtioNet)
  | virtioBlk (x : VirtioBlk)
  | ahciCd (x : AhciCd)
  | ahciHd (x : AhciHd)
  | virtioConsole (x : VirtioConsole)
  | nvme (x : Nvme)
  | pciPassthru (x : PciPassthru)
  | raw (x : RawEmulatedPci)
  | framebuffer (x : Framebuffer)
  | xhci
deriving DecidableEq, Repr

/-- `BhyveArg` as used by `src/vm/emulation.rs`. -/
inductive BhyveArg where
  | Legacy (s : String)
  | Config (kvs : List (String × String))
deriving DecidableEq, Repr

def pushOnKVStr (base : String) (key : String) (v : Option String) : String :=
  match v with
  | some value => base ++ "," ++ key ++ "=" ++ value
  | none => base

def pushOnKVNat (base : String) (key : String) (v : Option Nat) : String :=
  match v with
  | some value => base ++ "," ++ key ++ "=" ++ toString value
  | none => base

def pushOnFlag (base : String) (flag : String) (b : Bool) : String :=
  if b then base ++ "," ++ flag else base

def pushOnPairNat (kvs : List (String × String)) (key : String) (v : Option Nat) :
    List (String × String) :=
  match v with
  | some value => kvs ++ [(key, toString value)]
  | none => kvs

def pushOnPairStr (kvs : List (String × String)) (key : String) (v : Option String) :
    List (String × String) :=
  match v with
  | some value => kvs ++ [(key, value)]
  | none => kvs

/-- `PciSlot::to_bhyve_arg` from `src/vm/mod.rs`: `bus:slot:func`. -/
def PciSlot.to_bhyve_arg (p : PciSlot) : String :=
  toString p.bus ++ ":" ++ toString p.slot ++ ":" ++ toString p.func

/-- `PciSlot::as_passthru_arg`: `bus/slot/func` (shape fixed by the unit test
`pci_passthru_format` in `src/vm/emulation.rs`). -/
def PciSlot.as_passthru_arg (p : PciSlot) : String :=
  toString p.bus ++ "/" ++ toString p.slot ++ "/" ++ toString p.func

/-- `,port1=…,port2=…` accumulation of `VirtioConsole::as_bhyve_arg`. -/
def consolePorts (base : String) (idx : Nat) : List String → String
  | [] => base
  | p :: rest => consolePorts (base ++ ",port" ++ toString (idx + 1) ++ "=" ++ p) (idx + 1) rest

/-- The per-device `as_bhyve_arg` implementations from `src/vm/emulation.rs`.
Note `VirtioBlk` appends `sectorsize=…` without a separating comma, exactly as
the source does. -/
def VmEmu.as_bhyve_arg : VmEmu → BhyveArg
  | .virtioNet x =>
    .Legacy (pushOnKVStr (pushOnKVNat
      ("virtio-net," ++ x.name ++ ",type=" ++ x.tpe.show) "mtu" x.mtu) "mac" x.mac)
  | .virtioBlk x =>
    let base := "virtio-blk," ++ x.path
    let base := pushOnFlag base "direct" x.direct
    let base := pushOnFlag base "nocache" x.nocache
    let base := pushOnFlag base "ro" x.ro
    let base := pushOnFlag base "nodelete" x.nodelete
    let base :=
      match x.logical_sector_size with
      | some logical =>
        let value :=
          match x.physical_sector_size with
          | some physical => toString logical ++ "/" ++ toString physical
          | none => toString logical
        base ++ "sectorsize=" ++ value
      | none => base
    .Legacy base
  | .ahciCd x =>
    .Legacy (pushOnKVStr (pushOnKVStr (pushOnKVStr (pushOnKVNat
      ("ahci-cd," ++ x.path) "nmrr" x.nmrr) "ser" x.ser) "rev" x.rev) "model" x.model)
  | .ahciHd x =>
    .Legacy (pushOnKVStr (pushOnKVStr (pushOnKVStr (pushOnKVNat
      ("ahci-hd," ++ x.path) "nmrr" x.nmrr) "ser" x.ser) "rev" x.rev) "model" x.model)
  | .virtioConsole x => .Legacy (consolePorts "virtio-console" 0 x.ports)
  | .nvme x =>
    let kvs := [("device", "nvme")]
    let kvs := pushOnPairNat kvs "qsz" x.qsz
    let kvs := pushOnPairNat kvs "ioslots" x.ioslots
    let kvs := pushOnPairNat kvs "sectsz" x.sectsz
    let kvs := pushOnPairStr kvs "ser" x.ser
    let kvs := pushOnPairNat kvs "eui64" x.eui64
    let kvs := pushOnPairStr kvs "dsm" x.dsm
    let kvs :=
      match x.backend with
      | .Ram size => kvs ++ [("ram", toString size)]
      | .Path file => kvs ++ [("path", file)]
    .Config kvs
  | .pciPassthru x => .Legacy (pushOnKVStr ("passthru," ++ x.src.as_passthru_arg) "rom" x.rom)
  | .raw x => .Legacy x.value
  | .framebuffer x =>
    .Legacy (pushOnFlag (pushOnKVStr (pushOnKVStr (pushOnKVNat (pushOnKVNat
      ("fbuf,tcp=" ++ x.host ++ ":" ++ toString (x.port.getD 5900))
      "w" x.w) "h" x.h) "vga" x.vga) "password" x.password) "wait" x.wait)
  | .xhci => .Legacy "xhci,tablet"

/-- `LpcDevice` from `src/vm/mod.rs`. -/
inductive LpcDevice where
  | Com (n : Nat) (device : String)
  | Bootrom (rom : String) (varfile : Option String)
  | TestDev
deriving DecidableEq, Repr

/-- `LpcDevice::to_bhyve_arg` from `src/vm/mod.rs`. -/
def LpcDevice.to_bhyve_arg : LpcDevice → String
  | .Com i val => "com" ++ toString i ++ "," ++ val
  | .TestDev => "pc-testdev"
  | .Bootrom firmware varfile =>
    match varfile with
    | some var => "bootrom," ++ firmware ++ "," ++ var
    | none => "bootrom," ++ firmware

/-- `CpuSpec` from `src/vm/mod.rs`. -/
structure CpuSpec where
  threads : Nat
  cores : Nat
  sockets : Nat
deriving DecidableEq, Repr

/-- `CpuSpec::from_flat` from `src/spec/mod.rs`. -/
def CpuSpec.from_flat (threads : Nat) : CpuSpec :=
  ⟨threads, 1, 1⟩

/-- `CpuSpec::to_bhyve_arg` from `src/vm/mod.rs`. -/
def CpuSpec.to_bhyve_arg (c : CpuSpec) : String :=
  if c.sockets = 1 ∧ c.cores = 1 then toString c.threads
  else "sockets=" ++ toString c.sockets ++ ",threads=" ++ toString c.threads
    ++ ",cores=" ++ toString c.cores

structure UefiBoot where
  bootrom : String
  varfile : Option String
deriving DecidableEq, Repr

inductive BootOptions where
  | Uefi (u : UefiBoot)
deriving DecidableEq, Repr

/-- `default_bootopt` from `src/spec/defaults.rs`. -/
def default_bootopt : BootOptions :=
  .Uefi ⟨"/usr/local/share/uefi-firmware/BHYVE_UEFI.fd", none⟩

/-- `default_hostbridge` from `src/spec/defaults.rs`. -/
def default_hostbridge : String :=
  "hostbridge"

/-- `GraphicOption` from `src/spec/mod.rs`. -/
structure GraphicOption where
  host : String
  port : Option Nat
  vga : Option String
  password : Option String
  wait : Bool
  width : Option Nat
  height : Option Nat
  xhci_table : Bool
deriving DecidableEq, Repr

/-- `GraphicOption::to_emulated` from `src/spec/mod.rs`. -/
def GraphicOption.to_emulated (g : GraphicOption) : Framebuffer :=
  ⟨g.host, g.port, g.width, g.height, g.vga, g.wait, g.password⟩

/-- A host PCI device as reported by `pciconf -l` (`src/util/os/pci.rs`;
`class` is a Lean keyword, stored as `cls`). -/
structure PciDevice where
  device_name : String
  domain : Nat
  slot : PciSlot
  cls : Nat
  rev : Nat
  header_type : Nat
  vendor : Nat
  subvendor : Nat
  device : Nat
  subdevice : Nat
deriving DecidableEq, Repr

structure PciLookup where
  device : String
  vendor : String
deriving DecidableEq, Repr

/-- `PciPassthruX` from `src/spec/decoding.rs`. -/
structure PciPassthruX where
  src : Option PciSlot
  lookup : Option PciLookup
  rom : Option String
deriving DecidableEq, Repr

/-- `PciPassthruX::to_pci_passthru` from `src/spec/decoding.rs`; the host PCI
enumeration (`PciDevice::from_pciconf_l`) is passed in explicitly. -/
def PciPassthruX.to_pci_passthru (host : List PciDevice) (x : PciPassthruX) :
    Option PciPassthru :=
  match x.src with
  | some src => some ⟨src, x.rom⟩
  | none =>
    match x.lookup with
    | none => none
    | some lookup =>
      if lookup.vendor.length ≠ 10 ∨ lookup.device.length ≠ 10 then none
      else
        match parseNatBase 16 (lookup.vendor.toList.drop 2),
            parseNatBase 16 (lookup.device.toList.drop 2) with
        | some vendor, some device =>
          let v1 := vendor / 65536
          let v2 := vendor % 65536
          let d1 := device / 65536
          let d2 := device % 65536
          match host.find? (fun dev =>
            dev.vendor == v1 && dev.subvendor == v2 && dev.device == d1
              && dev.subdevice == d2) with
          | some dev => some ⟨dev.slot, x.rom⟩
          | none => none
        | _, _ => none

/-- `Emulations` from `src/spec/decoding.rs` (the `device`-tagged sum). -/
inductive Emulations where
  | VirtioConsole (x : VirtioConsole)
  | VirtioNet (x : VirtioNet)
  | VirtioBlk (x : VirtioBlk)
  | AhciHd (x : AhciHd)
  | AhciCd (x : AhciCd)
  | Passthru (x : PciPassthruX)
  | Nvme (x : Nvme)
  | Raw (value : String)
deriving DecidableEq, Repr

/-- `Emulation` from `src/spec/decoding.rs`. -/
structure Emulation where
  slot : Option PciSlot
  fix : Bool
  emulation : Emulations
deriving DecidableEq, Repr

/-- `Emulation::to_vm_emu` from `src/spec/decoding.rs`. -/
def Emulation.to_vm_emu (host : List PciDevice) (e : Emulation) : Except FormatError VmEmu :=
  match e.emulation with
  | .VirtioBlk x => .ok (.virtioBlk x)
  | .VirtioNet x => .ok (.virtioNet x)
  | .AhciCd x => .ok (.ahciCd x)
  | .AhciHd x => .ok (.ahciHd x)
  | .VirtioConsole x => .ok (.virtioConsole x)
  | .Nvme x => .ok (.nvme x)
  | .Passthru x =>
    match x.to_pci_passthru host with
    | none => .error (.InvalidUnit "")
    | some passthru => .ok (.pciPassthru passthru)
  | .Raw value => .ok (.raw ⟨value⟩)

/-- `EmulatedPciDevice` as constructed by `VmSpec::build`. -/
structure EmulatedPciDevice where
  slot : PciSlot
  want_fix : Bool
  emulation : VmEmu
deriving DecidableEq, Repr

/-! ## Specification model (`src/spec/mod.rs`) -/

/-- `VmSpecMod` (the overlay type) from `src/spec/mod.rs`. -/
structure VmSpecMod where
  cpu : Option CpuSpec
  mem : Option MemorySpec
  bootopt : Option BootOptions
  emulations : List Emulation
  gdb : Option String
  com1 : Option String
  com2 : Option String
  com3 : Option String
  com4 : Option String
  utc_clock : Option Bool
  yield_on_hlt : Option Bool
  generate_acpi : Option Bool
  wire_guest_mem : Option Bool
  force_msi : Option Bool
  disable_mptable_gen : Option Bool
  extra_options : Option String
  next_target : Option String
  post_start_script : Option String
  graphic : Option GraphicOption
deriving DecidableEq, Repr

/-- `VmSpec` from `src/spec/mod.rs` (the `targets` hash map is modelled as an
association list). -/
structure VmSpec where
  cpu : CpuSpec
  mem : MemorySpec
  bootopt : Option BootOptions
  emulations : List Emulation
  name : String
  hostbridge : String
  lpc_slot : Option PciSlot
  com1 : Option String
  com2 : Option String
  com3 : Option String
  com4 : Option String
  gdb : Option String
  uuid : Option String
  graphic : Option GraphicOption
  utc_clock : Bool
  yield_on_hlt : Bool
  generate_acpi : Bool
  wire_guest_mem : Bool
  force_msi : Bool
  disable_mptable_gen : Bool
  power_off_destroy_vm : Bool
  extra_options : Option String
  targets : List (String × VmSpecMod)
  next_target : Option String
  post_start_script : Option String
deriving DecidableEq, Repr

/-- The empty overlay: every field `None`, no emulation entries. -/
def VmSpecMod.empty : VmSpecMod :=
  ⟨none, none, none, [], none, none, none, none, none, none, none, none, none,
    none, none, none, none, none, none⟩

/-- `VmSpec::consume` from `src/spec/mod.rs`: plain fields are replaced when
the patch holds `Some`, option-typed fields are overwritten by the patch value
when the patch holds `Some` (the `?field` form of `replace_if_some!`), and
`emulations` is extended with the patch list. -/
def VmSpec.consume (s : VmSpec) (patch : VmSpecMod) : VmSpec :=
  { s with
    cpu := patch.cpu.getD s.cpu
    mem := patch.mem.getD s.mem
    bootopt := if patch.bootopt.isSome then patch.bootopt else s.bootopt
    gdb := if patch.gdb.isSome then patch.gdb else s.gdb
    com1 := if patch.com1.isSome then patch.com1 else s.com1
    com2 := if patch.com2.isSome then patch.com2 else s.com2
    com3 := if patch.com3.isSome then patch.com3 else s.com3
    com4 := if patch.com4.isSome then patch.com4 else s.com4
    utc_clock := patch.utc_clock.getD s.utc_clock
    yield_on_hlt := patch.yield_on_hlt.getD s.yield_on_hlt
    generate_acpi := patch.generate_acpi.getD s.generate_acpi
    wire_guest_mem := patch.wire_guest_mem.getD s.wire_guest_mem
    force_msi := patch.force_msi.getD s.force_msi
    disable_mptable_gen := patch.disable_mptable_gen.getD s.disable_mptable_gen
    extra_options := if patch.extra_options.isSome then patch.extra_options else s.extra_options
    next_target := if patch.next_target.isSome then patch.next_target else s.next_target
    post_start_script :=
      if patch.post_start_script.isSome then patch.post_start_script else s.post_start_script
    graphic := if patch.graphic.isSome then patch.graphic else s.graphic
    emulations := s.emulations ++ patch.emulations }

/-- `VmSpec::has_target`. -/
def VmSpec.has_target (s : VmSpec) (target : String) : Bool :=
  s.targets.any (fun p => p.1 == target)

/-- `VmSpec::consume_target`. -/
def VmSpec.consume_target (s : VmSpec) (target : String) : Except FormatError VmSpec :=
  match s.targets.find? (fun p => p.1 == target) with
  | none => .error .ProfileNotFound
  | some p => .ok (s.consume p.2)

/-- `VmRun` as constructed by `VmSpec::build` (the constructor call in
`src/spec/mod.rs` fixes this field set). -/
structure VmRun where
  cpu : CpuSpec
  mem_kb : Nat
  hostbridge_slot : PciSlot
  hostbridge_brand : String
  lpc_slot : PciSlot
  lpc_devices : List LpcDevice
  emulations : List EmulatedPciDevice
  name : String
  uuid : Option String
  gdb : Option String
  utc_clock : Bool
  yield_on_hlt : Bool
  generate_acpi : Bool
  wire_guest_mem : Bool
  force_msi : Bool
  disable_mptable_gen : Bool
  power_off_destroy_vm : Bool
  extra_options : List String
deriving DecidableEq, Repr

/-- The `for emulation in &self.emulations` loop of `VmSpec::build`: explicit
slots are used as declared, the rest come from `next_slot`; the variant is
converted with `to_vm_emu`. -/
def processEmus (host : List PciDevice) :
    PciSlotGenerator → List Emulation →
      Except FormatError (List EmulatedPciDevice × PciSlotGenerator)
  | gen, [] => .ok ([], gen)
  | gen, e :: rest =>
    match e.slot with
    | some s => do
      let emu ← e.to_vm_emu host
      let (devs, gen2) ← processEmus host gen rest
      .ok (⟨s, e.fix, emu⟩ :: devs, gen2)
    | none =>
      match gen.next_slot with
      | (none, _) => .error .RunOutOfSlots
      | (some s, gen1) => do
        let emu ← e.to_vm_emu host
        let (devs, gen2) ← processEmus host gen1 rest
        .ok (⟨s, e.fix, emu⟩ :: devs, gen2)

/-- The graphics block of `VmSpec::build`: a framebuffer on a fresh slot and,
when `xhci_table` is set, an `Xhci` device on a second fresh slot. -/
def addGraphic :
    PciSlotGenerator → Option GraphicOption →
      Except FormatError (List EmulatedPciDevice × PciSlotGenerator)
  | gen, none => .ok ([], gen)
  | gen, some graphic =>
    match gen.next_slot with
    | (none, _) => .error .RunOutOfSlots
    | (some slot, gen1) =>
      let fb : EmulatedPciDevice := ⟨slot, false, .framebuffer graphic.to_emulated⟩
      if graphic.xhci_table then
        match gen1.next_slot with
        | (none, _) => .error .RunOutOfSlots
        | (some slot2, gen2) => .ok ([fb, ⟨slot2, false, .xhci⟩], gen2)
      else .ok ([fb], gen1)

/-- `opts.split(' ')` keeping nonempty tokens, from `VmSpec::build`. -/
def splitExtraOptions (opts : String) : List String :=
  (opts.splitOn " ").filter (fun s => s ≠ "")

/-- The `com1`–`com4` pushes of `VmSpec::build`, in source order. -/
def comDevices (s : VmSpec) : List LpcDevice :=
  (match s.com1 with | some com => [LpcDevice.Com 1 com] | none => [])
    ++ (match s.com2 with | some com => [LpcDevice.Com 2 com] | none => [])
    ++ (match s.com3 with | some com => [LpcDevice.Com 3 com] | none => [])
    ++ (match s.com4 with | some com => [LpcDevice.Com 4 com] | none => [])

/-- The explicitly declared slots collected at the top of `VmSpec::build`
(every `Some` emulation slot, then `lpc_slot` if set). -/
def slotsTakenOf (s : VmSpec) : List PciSlot :=
  s.emulations.filterMap (fun e => e.slot)
    ++ (match s.lpc_slot with | some l => [l] | none => [])

/-- The LPC device list of `VmSpec::build`: the bootrom of the (defaulted)
boot options, then the configured `com1`-`com4` devices. -/
def lpcDevicesOf (s : VmSpec) : List LpcDevice :=
  (match s.bootopt.getD default_bootopt with
    | .Uefi u => [LpcDevice.Bootrom u.bootrom u.varfile]) ++ comDevices s

/-- The extra options of `VmSpec::build`: the spec `extra_options` string
split on single spaces with empty tokens dropped, then the caller-supplied
arguments. -/
def extraOptionsOf (s : VmSpec) (extra_opts : List String) : List String :=
  (match s.extra_options with
    | some opts => splitExtraOptions opts
    | none => []) ++ extra_opts

/-- `VmSpec::build` from `src/spec/mod.rs`.  The host PCI enumeration used by
the passthru lookup path is passed in explicitly.  Control flow mirrors the
source: hostbridge slot via `try_take_specific_bus(0)`, LPC slot (explicit,
or `try_take_specific_bus_slot(0, 31)` with NO further fallback), then the
device loop, then the graphics block. -/
def VmSpec.build (host : List PciDevice) (s : VmSpec) (extra_opts : List String) :
    Except FormatError VmRun :=
  match (PciSlotGenerator.build 0 0 (slotsTakenOf s)).try_take_specific_bus 0 with
  | (none, _) => .error .HostbridgeSlotNotSatisfy
  | (some hostbdg_slot, gen1) =>
    match (match s.lpc_slot with
      | none => gen1.try_take_specific_bus_slot 0 31
      | some slot => (some slot, gen1)) with
    | (none, _) => .error .LpcSlotNotSatisfy
    | (some lpc_slot, gen2) =>
      match processEmus host gen2 s.emulations with
      | .error e => .error e
      | .ok (emus, gen3) =>
        match addGraphic gen3 s.graphic with
        | .error e => .error e
        | .ok (gemus, _) =>
          .ok
            { cpu := s.cpu
              mem_kb := s.mem.kb
              hostbridge_slot := hostbdg_slot
              hostbridge_brand := s.hostbridge
              lpc_slot := lpc_slot
              lpc_devices := lpcDevicesOf s
              emulations := emus ++ gemus
              name := s.name
              uuid := s.uuid
              gdb := s.gdb
              utc_clock := s.utc_clock
              yield_on_hlt := s.yield_on_hlt
              generate_acpi := s.generate_acpi
              wire_guest_mem := s.wire_guest_mem
              force_msi := s.force_msi
              disable_mptable_gen := s.disable_mptable_gen
              power_off_destroy_vm := s.power_off_destroy_vm
              extra_options := extraOptionsOf s extra_opts }

/-- The `-s` value for one emulated device: the slot triple, a comma, then the
device serialization (for the `Config` form the key-value pairs are joined in
order, printing the `device` entry as a bare name). -/
def EmulatedPciDevice.slot_arg (e : EmulatedPciDevice) : String :=
  e.slot.to_bhyve_arg ++ "," ++
    match e.emulation.as_bhyve_arg with
    | .Legacy s => s
    | .Config kvs =>
      String.intercalate ","
        (kvs.map (fun kv => if kv.1 = "device" then kv.2 else kv.1 ++ "=" ++ kv.2))

/-- Modelled from the spec: `VmRun::bhyve_args` of the current device model.
The `src/vm/mod.rs` revision present in the tree is an older one whose `VmRun`
lacks the `hostbridge_slot`, `hostbridge_brand` and `lpc_slot` fields that
`VmSpec::build` fills in, so the serializer for the compiled `VmRun` is not
under `src/`.  Shape and order follow spec §6 and scenario S1: boolean flags
(`-H -u -A` for the default-true trio, then the default-false switches),
`-c <cpu>`, `-m <mem>K`, optional `-G`/`-U`, one `-s` for the hostbridge, one
`-s` for the LPC, one `-s` per device, one `-l` per LPC device, the extra
options, and the VM name last. -/
def VmRun.bhyve_args (r : VmRun) : List String :=
  (if r.yield_on_hlt then ["-H"] else [])
    ++ (if r.utc_clock then ["-u"] else [])
    ++ (if r.generate_acpi then ["-A"] else [])
    ++ (if r.wire_guest_mem then ["-S"] else [])
    ++ (if r.force_msi then ["-W"] else [])
    ++ (if r.disable_mptable_gen then ["-Y"] else [])
    ++ (if r.power_off_destroy_vm then ["-D"] else [])
    ++ ["-c", r.cpu.to_bhyve_arg, "-m", toString r.mem_kb ++ "K"]
    ++ (match r.gdb with | some gdb => ["-G", gdb] | none => [])
    ++ (match r.uuid with | some uuid => ["-U", uuid] | none => [])
    ++ ["-s", r.hostbridge_slot.to_bhyve_arg ++ "," ++ r.hostbridge_brand]
    ++ ["-s", r.lpc_slot.to_bhyve_arg ++ ",lpc"]
    ++ r.emulations.flatMap (fun e => ["-s", e.slot_arg])
    ++ r.lpc_devices.flatMap (fun l => ["-l", l.to_bhyve_arg])
    ++ r.extra_options
    ++ [r.name]

/-! ## Conditions and assertions (`src/vm/conditions.rs`, `src/util/assertion.rs`) -/

/-- `Assertion` from `src/util/assertion.rs`.  The repair closure of a
`Recoverable` assertion is modelled by the observable command it runs
(the argv handed to the OS). -/
inductive Assertion where
  | Recoverable (scope : String) (why : String) (repair : List String)
  | Fatal (scope : String) (why : String)
  | Container (items : List (String × Assertion))

/-- The host state consulted by `NetworkBackendAvailable::check`:
the interfaces reported by `ifconfig -g tap` and those whose `ifconfig`
output contains `Opened by PID`. -/
structure NetHost where
  taps : List String
  opened : List String
deriving DecidableEq, Repr

/-- `NetworkBackendAvailable` from `src/vm/conditions.rs`. -/
structure NetworkBackendAvailable where
  backend : NetBackend
  name : String
deriving DecidableEq, Repr

/-- `Condition::name` for `NetworkBackendAvailable`. -/
def NetworkBackendAvailable.cond_name (_c : NetworkBackendAvailable) : String :=
  "network-backend-available"

/-- `NetworkBackendAvailable::check` from `src/vm/conditions.rs`.  In the
missing-tap branch the source captures `self.name()` — the condition name —
rather than the `name` field, and the repair closure runs
`ifconfig tap create name <captured>`; the model reproduces that capture. -/
def NetworkBackendAvailable.check (host : NetHost) (c : NetworkBackendAvailable) :
    Except Assertion Unit :=
  match c.backend with
  | .Tap =>
    if c.name ∈ host.taps then
      if c.name ∈ host.opened then
        .error (.Fatal c.cond_name
          "Tap device exists but is already opened by another process")
      else .ok ()
    else
      let name := c.cond_name
      .error (.Recoverable "tap-iface" "create-tap"
        ["ifconfig", "tap", "create", "name", name])
  | _ => .ok ()

/-! ## Supervisor loop (`src/main.rs`) -/

/-- `VmRunError` from `src/main.rs` (the assertion payload of `VmErr` and the
io error payload are dropped). -/
inductive VmRunError where
  | VmErr
  | SpecErr (e : FormatError)
  | PreconditionFailure (s : String)
  | IoError
deriving DecidableEq, Repr

/-- The command-line arguments relevant to the modelled control flow. -/
structure Arguments where
  target : Option String
  no_reboot : Bool
  force : Bool
  dry_run : Bool
  reboot_count : Option Nat
  reboot_on : List Int
  no_requirement_check : Bool
  debug : Bool
  extra_bhyve_args : List String

/-- `vm_run_session` from `src/main.rs`, restricted to its pure control flow.
It receives a spec argument and, after spawning the hypervisor, executes
`spec.post_start_script` — the script of THAT argument.  The returned list
records, per session that reached the spawn stage, which script was executed
(`none`: no script configured).  Under `--dry-run`/`--debug` the source
returns `Ok(0)` before spawning, so no script event is recorded.  The
hypervisor exit code is supplied by the `code` oracle argument; pid-file and
spawn failures (which panic or return `IoError` in the source) are outside
the modelled executions. -/
def sessionEvents (args : Arguments) (spec : VmSpec) : List (Option String) :=
  if args.dry_run ∨ args.debug then [] else [spec.post_start_script]

def sessionResult (args : Arguments) (code : Int) : Except VmRunError Int :=
  if args.dry_run ∨ args.debug then .ok 0 else .ok code

def vm_run_session (args : Arguments) (spec : VmSpec) (_vmrun : VmRun) (code : Int) :
    List (Option String) × Except VmRunError Int :=
  (sessionEvents args spec, sessionResult args code)

/-- The target-resolution step at the top of the `vm_main` loop: the implicit
`default` target resets to a clone of the root `vm`, any other (or an
explicitly defined `default`) target is consumed into the current spec. -/
def resolveTarget (vm spec : VmSpec) (next_target : Option String) :
    Except VmRunError VmSpec :=
  match next_target with
  | some target =>
    if target = "default" ∧ ¬ spec.has_target target then .ok vm
    else
      match spec.consume_target target with
      | .error e => .error (.SpecErr e)
      | .ok sp => .ok sp
  | none => .ok spec

/-- The `exit_code` binding of the `vm_main` loop: the session result, with
failures mapped to 4. -/
def exitCodeOf (run_result : Except VmRunError Int) : Int :=
  match run_result with
  | .ok ec => ec
  | .error _ => 4

/-- `Result::is_ok`. -/
def exceptIsOk (run_result : Except VmRunError Int) : Bool :=
  match run_result with
  | .ok _ => true
  | .error _ => false

/-- The `loop` body of `vm_main` from `src/main.rs`.  `codes` supplies the
exit code of each hypervisor session (the model stops with `IoError` if a
session would run with the oracle exhausted); `fatalPrecond i` tells whether
the full precondition tree of iteration `i` fails with a non-recoverable
assertion (the check itself consults the host and is abstracted; the
per-emulation recovery pass mutates only host state).  Mirrors: target
resolution with the implicit `default` target, `next_target` chaining,
`build`, the precondition gate, the session call — which passes the ROOT
spec `vm`, not the iteration spec, as the source does — the `--debug`/
`--dry-run` early exit, and the reboot decision.  Returns the script events
of every session together with the result of `vm_main`. -/
def vm_main_loop (host : List PciDevice) (args : Arguments) (vm : VmSpec)
    (fatalPrecond : Nat → Bool) :
    List Int → VmSpec → Option String → Nat →
      List (Option String) × Except VmRunError Int
  | codes, spec, next_target, reboot_count =>
    match resolveTarget vm spec next_target with
    | .error e => ([], .error e)
    | .ok spec2 =>
      match spec2.build host args.extra_bhyve_args with
      | .error e => ([], .error (.SpecErr e))
      | .ok _vmrun =>
        if ¬ args.no_requirement_check ∧ fatalPrecond reboot_count then
          ([], .error (.PreconditionFailure "One of more fatal failure encountered"))
        else
          match codes with
          | [] => ([], .error .IoError)
          | code :: restCodes =>
            if args.debug ∨ args.dry_run then (sessionEvents args vm, .ok 0)
            else
              if reboot_count < args.reboot_count.getD (2 ^ 64 - 1)
                  ∧ exitCodeOf (sessionResult args code) ∈ args.reboot_on
                  ∧ exceptIsOk (sessionResult args code) = true
                  ∧ ¬ args.dry_run ∧ ¬ args.no_reboot then
                (sessionEvents args vm
                    ++ (vm_main_loop host args vm fatalPrecond restCodes spec2
                        spec2.next_target (reboot_count + 1)).1,
                  (vm_main_loop host args vm fatalPrecond restCodes spec2
                    spec2.next_target (reboot_count + 1)).2)
              else
                match sessionResult args code with
                | .error e => (sessionEvents args vm, .error e)
                | .ok _ => (sessionEvents args vm, .ok (exitCodeOf (sessionResult args code)))

/-- `vm_main` from `src/main.rs`: enters the loop with a fresh clone of the
root spec, reboot count 0 and the command-line target. -/
def vm_main (host : List PciDevice) (args : Arguments) (vm : VmSpec)
    (fatalPrecond : Nat → Bool) (codes : List Int) :
    List (Option String) × Except VmRunError Int :=
  vm_main_loop host args vm fatalPrecond codes vm args.target 0

/-- The final `match vm_main(&args, &vm)` of `main` in `src/main.rs`: on `Ok`
the process exits with the returned code; on `Err` it prints the error and
falls off the end of `main`, so the process exits with status 0. -/
def mainExitCode (result : Except VmRunError Int) : Int :=
  match result with
  | .ok exit_code => exit_code
  | .error _ => 0

/-! ## Concrete scenario inputs -/

/-- The S1 document of the spec with the disk slot already parsed: name `t`,
1 cpu, 512M memory, one virtio-blk at the given slot, everything else at its
deserialization default. -/
def s1SpecWith (sl : PciSlot) : VmSpec :=
  { cpu := CpuSpec.from_flat 1
    mem := ⟨524288⟩
    bootopt := none
    emulations :=
      [⟨some sl, false, .VirtioBlk ⟨"/tmp/img", false, false, false, none, none, false⟩⟩]
    name := "t"
    hostbridge := default_hostbridge
    lpc_slot := none
    com1 := none, com2 := none, com3 := none, com4 := none
    gdb := none, uuid := none, graphic := none
    utc_clock := true, yield_on_hlt := true, generate_acpi := true
    wire_guest_mem := false, force_msi := false, disable_mptable_gen := false
    power_off_destroy_vm := false
    extra_options := none
    targets := []
    next_target := none
    post_start_script := none }

/-- The S1 scenario exactly as the claim states it: the slot field holds the
JSON string `0:5`, which deserializes through `PciSlot::from_str`; the
document is then compiled and serialized. -/
def s1Stated : Except FormatError (List String) := do
  let sl ← PciSlot.from_str "0:5"
  let r ← (s1SpecWith sl).build [] []
  Except.ok r.bhyve_args

/-- The S2 scenario: one device explicitly at bus 0 slot 31, no `lpc_slot`. -/
def c2Spec : VmSpec :=
  { s1SpecWith ⟨0, 31, 0⟩ with name := "t" }

/-- Two devices declaring the same explicit slot `0:5:0`. -/
def c3Spec : VmSpec :=
  { s1SpecWith ⟨0, 5, 0⟩ with
    emulations :=
      [⟨some ⟨0, 5, 0⟩, false, .VirtioBlk ⟨"/a", false, false, false, none, none, false⟩⟩,
        ⟨some ⟨0, 5, 0⟩, false, .VirtioBlk ⟨"/b", false, false, false, none, none, false⟩⟩] }

/-- The PCI slot list of a compiled `VmRun` that the duplicate-freedom claim
quantifies over: hostbridge slot, LPC slot, then every emulated device slot. -/
def runSlots (r : VmRun) : List PciSlot :=
  r.hostbridge_slot :: r.lpc_slot :: r.emulations.map (fun e => e.slot)

/-! ## Claim theorems -/

/-- C4: for a two-component slot string such as `0:5`, `PciSlot::from_str`
does NOT return the slot with bus 0 — the `comps.len() == 2` guard rejects it
with `InvalidPciSlotRepr`, although the (unreachable) match arm below the
guard implements exactly the claimed semantics; one- and three-component
forms parse as documented. -/
theorem c4_two_component_slot_rejected :
    PciSlot.from_str "0:5" = .error (.InvalidPciSlotRepr "0:5")
      ∧ PciSlot.from_str "5" = .ok ⟨0, 5, 0⟩
      ∧ PciSlot.from_str "0:5:0" = .ok ⟨0, 5, 0⟩ := by
  refine ⟨?_, ?_, ?_⟩ <;> rfl

/-- C5: the memory parser returns 1, 1024 and 2·1024² kb for `1K`, `1M`
and `2G`, and a bare integer deserializes to `n / 1000` kb — but `0x10K`
does not parse to 16: the scan stops at the non-digit `x` with `index = 1`
while `start = 2`, and the source then slices `&input[2..1]`, which panics;
a lowercase unit such as `1k` is also rejected rather than accepted
case-insensitively. -/
theorem c5_memory_parse_results :
    parse_mem_in_kb "1K" = .ok 1
      ∧ parse_mem_in_kb "1M" = .ok 1024
      ∧ parse_mem_in_kb "2G" = .ok (2 * 1024 * 1024)
      ∧ parse_mem_in_kb "0x10K" = .panicked
      ∧ parse_mem_in_kb "1k" = .err (.InvalidUnit "k")
      ∧ (∀ n : Nat, MemorySpec.deserialize (.int n) = .ok ⟨n / 1000⟩) := by
  refine ⟨rfl, rfl, rfl, rfl, rfl, fun n => rfl⟩

/-- C2: with a device explicitly at bus 0 slot 31 and no explicit `lpc_slot`,
`build` does NOT fall back to another bus-0 slot for the LPC: the slot is in
the reservation list, so `try_take_specific_bus_slot(0, 31)` returns `None`
and `build` fails with `LpcSlotNotSatisfy` — contrary to the fallback the
source comment and the claim describe. -/
theorem c2_lpc_no_fallback :
    c2Spec.build [] [] = .error .LpcSlotNotSatisfy := by
  rfl

/-- C1 counterexample: compiling the S1 document exactly as stated — with the
slot string `0:5` — fails with `InvalidPciSlotRepr` at slot deserialization,
so the compilation does not succeed, let alone produce the claimed argv. -/
theorem c1_counterexample : s1Stated = .error (.InvalidPciSlotRepr "0:5") := by
  rfl

/-- C1 (amended): with the disk slot written so that it denotes bus 0,
slot 5, function 0 (`0:5:0`, or equivalently `5`), compiling the S1 document
succeeds and serializes to exactly the claimed argv in the claimed order. -/
theorem c1_amended_argv :
    ((s1SpecWith ⟨0, 5, 0⟩).build [] []).map VmRun.bhyve_args
      = .ok ["-H", "-u", "-A", "-c", "1", "-m", "524288K",
          "-s", "0:0:0,hostbridge", "-s", "0:31:0,lpc",
          "-s", "0:5:0,virtio-blk,/tmp/img",
          "-l", "bootrom,/usr/local/share/uefi-firmware/BHYVE_UEFI.fd", "t"] := by
  rfl

/-- C8: for a virtio-net Tap device named `tap9` on a host without `tap9`,
the check is indeed `Recoverable`, but the repair command is
`ifconfig tap create name network-backend-available`: the closure captures
`self.name()` — the condition name — instead of the `name` field, so the
created interface does NOT carry the declared backend name. -/
theorem c8_tap_repair_wrong_name :
    NetworkBackendAvailable.check ⟨[], []⟩ ⟨.Tap, "tap9"⟩
        = .error (.Recoverable "tap-iface" "create-tap"
            ["ifconfig", "tap", "create", "name", "network-backend-available"])
      ∧ ["ifconfig", "tap", "create", "name", "network-backend-available"]
          ≠ ["ifconfig", "tap", "create", "name", "tap9"] := by
  exact ⟨rfl, by decide⟩

/-- The `?field` branch of `replace_if_some!` keeps a `Some`: the result is
`Some` whenever the patch or the current value is. -/
theorem isSome_replace {α : Type} (a b : Option α) :
    (if a.isSome then a else b).isSome = (a.isSome || b.isSome) := by
  cases a <;> simp

/-- C7: `consume` with the empty patch is the identity, `emulations` is
appended in order, and every option-typed overlay field of the result is
`Some` whenever the current value is `Some` (a `Some` is never reverted to
`None`; in fact the result is `Some` iff the patch or the current value is). -/
theorem c7_consume_overlay :
    (∀ s : VmSpec, s.consume VmSpecMod.empty = s)
      ∧ (∀ (s : VmSpec) (p : VmSpecMod),
          (s.consume p).emulations = s.emulations ++ p.emulations)
      ∧ (∀ (s : VmSpec) (p : VmSpecMod),
          (s.consume p).bootopt.isSome = (p.bootopt.isSome || s.bootopt.isSome)
          ∧ (s.consume p).gdb.isSome = (p.gdb.isSome || s.gdb.isSome)
          ∧ (s.consume p).com1.isSome = (p.com1.isSome || s.com1.isSome)
          ∧ (s.consume p).com2.isSome = (p.com2.isSome || s.com2.isSome)
          ∧ (s.consume p).com3.isSome = (p.com3.isSome || s.com3.isSome)
          ∧ (s.consume p).com4.isSome = (p.com4.isSome || s.com4.isSome)
          ∧ (s.consume p).extra_options.isSome
              = (p.extra_options.isSome || s.extra_options.isSome)
          ∧ (s.consume p).next_target.isSome
              = (p.next_target.isSome || s.next_target.isSome)
          ∧ (s.consume p).post_start_script.isSome
              = (p.post_start_script.isSome || s.post_start_script.isSome)
          ∧ (s.consume p).graphic.isSome = (p.graphic.isSome || s.graphic.isSome)) := by
  refine ⟨fun s => ?_, fun s p => rfl, fun s p => ?_⟩
  · cases s
    simp [VmSpec.consume, VmSpecMod.empty]
  · refine ⟨?_, ?_, ?_, ?_, ?_, ?_, ?_, ?_, ?_, ?_⟩ <;>
      simp [VmSpec.consume, isSome_replace]

/-- Generator states reachable from the cursor `(bus 0, slot 0)` that
`VmSpec::build` starts from, under the three generator operations. -/
inductive ReachableGen : PciSlotGenerator → Prop where
  | init (skip : List PciSlot) : ReachableGen (PciSlotGenerator.build 0 0 skip)
  | stepNext (g : PciSlotGenerator) : ReachableGen g → ReachableGen g.next_slot.2
  | stepBus (g : PciSlotGenerator) (bus : Nat) :
      ReachableGen g → ReachableGen (g.try_take_specific_bus bus).2
  | stepBusSlot (g : PciSlotGenerator) (bus slot : Nat) :
      ReachableGen g → ReachableGen (g.try_take_specific_bus_slot bus slot).2

/-- `nextSlotFuel` keeps the cursor slot within the PCI bound. -/
theorem nextSlotFuel_slot_le (fuel : Nat) :
    ∀ g : PciSlotGenerator, g.slot ≤ 31 → (nextSlotFuel fuel g).2.slot ≤ 31 := by
  induction fuel with
  | zero => intro g hg; exact hg
  | succ fuel ih =>
    intro g hg
    simp only [nextSlotFuel]
    split
    · exact hg
    · rename_i h1
      split
      · rename_i h2
        exact ih _ (by simp)
      · rename_i h2
        split
        · exact ih _ (by simp; omega)
        · simp
          omega

/-- Every state reachable from the initial cursor keeps its slot within the
PCI bound. -/
theorem reachable_slot_le (g : PciSlotGenerator) (h : ReachableGen g) : g.slot ≤ 31 := by
  induction h with
  | init skip => exact by simp [PciSlotGenerator.build]
  | stepNext g _ ih => exact nextSlotFuel_slot_le 8200 g ih
  | stepBus g bus _ ih =>
    unfold PciSlotGenerator.try_take_specific_bus
    split
    · exact ih
    · split
      · exact nextSlotFuel_slot_le 8200 g ih
      · split <;> exact ih
  | stepBusSlot g bus slot _ ih =>
    unfold PciSlotGenerator.try_take_specific_bus_slot
    split
    · exact ih
    · split
      · exact nextSlotFuel_slot_le 8200 g ih
      · exact ih

/-- When the cursor slot is within bound, an issued slot is never 31: the
source skips from slot 31 directly to the next bus before issuing. -/
theorem nextSlotFuel_ne_31 (fuel : Nat) :
    ∀ (g : PciSlotGenerator) (ret : PciSlot) (g2 : PciSlotGenerator),
      g.slot ≤ 31 → nextSlotFuel fuel g = (some ret, g2) → ret.slot ≠ 31 := by
  induction fuel with
  | zero =>
    intro g ret g2 _ h
    simp [nextSlotFuel] at h
  | succ fuel ih =>
    intro g ret g2 hg h
    simp only [nextSlotFuel] at h
    split at h
    · simp at h
    · rename_i h1
      split at h
      · rename_i h2
        exact ih _ ret _ (by simp) h
      · rename_i h2
        split at h
        · exact ih _ ret _ (by simp; omega) h
        · have hret : ret = ⟨g.bus, g.slot, 0⟩ := by
            have hfst := congrArg Prod.fst h
            simpa using hfst.symm
          subst hret
          simpa using h2

/-- C9: on every reachable generator state, `next_slot` never issues a slot
whose slot component is 31 — auto-assigned devices never land on slot 31 of
any bus. -/
theorem c9_auto_slots_avoid_31 (g : PciSlotGenerator) (hg : ReachableGen g)
    (ret : PciSlot) (g2 : PciSlotGenerator) (h : g.next_slot = (some ret, g2)) :
    ret.slot ≠ 31 :=
  nextSlotFuel_ne_31 8200 g ret g2 (reachable_slot_le g hg) h

/-- Witness for C9 at the initial generator with an empty reservation list. -/
theorem c9_witness :
    ReachableGen (PciSlotGenerator.build 0 0 [])
      ∧ (PciSlotGenerator.build 0 0 []).next_slot
          = (some ⟨0, 0, 0⟩, PciSlotGenerator.build 0 1 [])
      ∧ (PciSlot.mk 0 0 0).slot ≠ 31 :=
  ⟨.init [], rfl,
    c9_auto_slots_avoid_31 (PciSlotGenerator.build 0 0 []) (.init [])
      ⟨0, 0, 0⟩ (PciSlotGenerator.build 0 1 []) rfl⟩

/-- Each session executes the post-start script of the spec argument the loop
hands to `vm_run_session`; under `--dry-run`/`--debug` no script runs. -/
theorem sessionEvents_all (args : Arguments) (spec : VmSpec) :
    (sessionEvents args spec).all (fun s => s == spec.post_start_script) = true := by
  unfold sessionEvents
  split <;> simp

/-- Every script event the supervisor loop produces carries the ROOT spec
post-start script, regardless of the current per-iteration spec, its targets,
or the reboot count. -/
theorem vm_main_loop_scripts (host : List PciDevice) (args : Arguments) (vm : VmSpec)
    (fatalPrecond : Nat → Bool) :
    ∀ (codes : List Int) (spec : VmSpec) (nt : Option String) (rc : Nat),
      ((vm_main_loop host args vm fatalPrecond codes spec nt rc).1).all
        (fun s => s == vm.post_start_script) = true := by
  intro codes
  induction codes with
  | nil =>
    intro spec nt rc
    unfold vm_main_loop
    repeat' split
    all_goals simp_all
  | cons code restCodes ih =>
    intro spec nt rc
    unfold vm_main_loop
    repeat' split
    all_goals simp_all [List.all_append, sessionEvents_all, ih]
    all_goals exact fun x hx => ih _ _ _ x hx

/-- C10: in every iteration of the supervisor loop the post-start script
executed after spawning the hypervisor is the root configuration document
post-start script (`vm_run_session` receives the root `vm`, not the
iteration spec), so one introduced or changed only by a target overlay is
never the one executed. -/
theorem c10_post_start_script_is_root (host : List PciDevice) (args : Arguments)
    (vm : VmSpec) (fatalPrecond : Nat -> Bool) (codes : List Int) :
    ((vm_main host args vm fatalPrecond codes).1).all
      (fun s => s == vm.post_start_script) = true :=
  vm_main_loop_scripts host args vm fatalPrecond codes vm args.target 0

/-- The default supervisor arguments of the exit-code scenario: no target, no
reboots, requirement checking skipped (the claims on exit codes are about the
paths after a successful build). -/
def normalArgs : Arguments :=
  { target := none, no_reboot := true, force := false, dry_run := false,
    reboot_count := none, reboot_on := [0], no_requirement_check := true,
    debug := false, extra_bhyve_args := [] }

/-- C6: when the hypervisor session completes normally the supervisor exits
with the hypervisor exit code; but on a failure surfaced as `Err` from
`vm_main` (I/O, precondition or setup failure before or during spawn) `main`
only prints the error and falls off the end, so the process exits 0 — NOT 4
as the claim states. -/
theorem c6_exit_codes :
    (∀ (host : List PciDevice) (vm : VmSpec) (r : VmRun) (code : Int),
        vm.build host [] = .ok r →
        (vm_main host normalArgs vm (fun _ => false) [code]).2 = .ok code
          ∧ mainExitCode (vm_main host normalArgs vm (fun _ => false) [code]).2 = code)
      ∧ (∀ e : VmRunError, mainExitCode (.error e) = 0) := by
  constructor
  · intro host vm r code hb
    constructor
    · simp [vm_main, vm_main_loop, normalArgs, hb, resolveTarget,
        exitCodeOf, exceptIsOk, sessionResult, sessionEvents]
    · simp [vm_main, vm_main_loop, normalArgs, hb, resolveTarget,
        exitCodeOf, exceptIsOk, sessionResult, sessionEvents, mainExitCode]
  · intro e
    rfl

/-- The compiled `VmRun` of the amended S1 document, spelled out. -/
def s1Run : VmRun :=
  { cpu := { threads := 1, cores := 1, sockets := 1 }
    mem_kb := 524288
    hostbridge_slot := { bus := 0, slot := 0, func := 0 }
    hostbridge_brand := "hostbridge"
    lpc_slot := { bus := 0, slot := 31, func := 0 }
    lpc_devices := [LpcDevice.Bootrom "/usr/local/share/uefi-firmware/BHYVE_UEFI.fd" none]
    emulations := [EmulatedPciDevice.mk ⟨0, 5, 0⟩ false
      (VmEmu.virtioBlk (VirtioBlk.mk "/tmp/img" false false false none none false))]
    name := "t"
    uuid := none
    gdb := none
    utc_clock := true
    yield_on_hlt := true
    generate_acpi := true
    wire_guest_mem := false
    force_msi := false
    disable_mptable_gen := false
    power_off_destroy_vm := false
    extra_options := [] }

/-- Witness for C6 at a concrete configuration and hypervisor exit code 7. -/
theorem c6_exit_codes_witness :
    (s1SpecWith ⟨0, 5, 0⟩).build [] [] = .ok s1Run
      ∧ mainExitCode
          (vm_main [] normalArgs (s1SpecWith ⟨0, 5, 0⟩) (fun _ => false) [7]).2 = 7 :=
  ⟨rfl, (c6_exit_codes.1 [] (s1SpecWith ⟨0, 5, 0⟩) s1Run 7 rfl).2⟩

/-! ## Slot-freedom infrastructure for the duplicate-slot invariant -/

/-- `x` lies strictly before the cursor of `g` in the issue order. -/
def posLt (x : PciSlot) (g : PciSlotGenerator) : Prop :=
  x.bus < g.bus ∨ (x.bus = g.bus ∧ x.slot < g.slot)

/-- The cursor of `g` is at or before the position of `x`. -/
def cursorLe (g : PciSlotGenerator) (x : PciSlot) : Prop :=
  g.bus < x.bus ∨ (g.bus = x.bus ∧ g.slot ≤ x.slot)

/-- Cursor order between generator states. -/
def genLe (g h : PciSlotGenerator) : Prop :=
  g.bus < h.bus ∨ (g.bus = h.bus ∧ g.slot ≤ h.slot)

theorem genLe_refl (g : PciSlotGenerator) : genLe g g := by
  right; omega

theorem genLe_trans {a b c : PciSlotGenerator} (h1 : genLe a b) (h2 : genLe b c) :
    genLe a c := by
  unfold genLe at *
  omega

theorem cursorLe_of_genLe {a b : PciSlotGenerator} {x : PciSlot}
    (h1 : genLe a b) (h2 : cursorLe b x) : cursorLe a x := by
  unfold genLe cursorLe at *
  omega

theorem posLt_of_genLe {x : PciSlot} {a b : PciSlotGenerator}
    (h1 : posLt x a) (h2 : genLe a b) : posLt x b := by
  unfold posLt genLe at *
  omega

/-- A slot before the cursor differs from any slot at or after it. -/
theorem ne_of_posLt_of_cursorLe {x r : PciSlot} {g : PciSlotGenerator}
    (h1 : posLt x g) (h2 : cursorLe g r) : x ≠ r := by
  intro h
  subst h
  unfold posLt cursorLe at *
  omega

/-- Full characterization of one `next_slot` issue (any fuel): the skip list
is untouched, the cursor does not move backwards, and an issued slot is
unreserved, has function 0, sits at or after the old cursor, and sits right
before the new cursor. -/
theorem nextSlotFuel_spec (fuel : Nat) :
    ∀ g : PciSlotGenerator,
      (nextSlotFuel fuel g).2.skip = g.skip
      ∧ genLe g (nextSlotFuel fuel g).2
      ∧ ∀ ret, (nextSlotFuel fuel g).1 = some ret →
          ret ∉ g.skip ∧ ret.func = 0 ∧ cursorLe g ret
          ∧ ret.bus = (nextSlotFuel fuel g).2.bus
          ∧ ret.slot + 1 = (nextSlotFuel fuel g).2.slot := by
  induction fuel with
  | zero =>
    intro g
    refine ⟨rfl, genLe_refl g, ?_⟩
    intro ret h
    simp [nextSlotFuel] at h
  | succ fuel ih =>
    intro g
    simp only [nextSlotFuel]
    split
    · exact ⟨rfl, genLe_refl g, fun ret h => by simp at h⟩
    · rename_i h1
      split
      · rename_i h2
        obtain ⟨s1, s2, s3⟩ := ih { g with bus := g.bus + 1, slot := 0 }
        refine ⟨s1, genLe_trans ?_ s2, ?_⟩
        · left; simp
        · intro ret h
          obtain ⟨n1, n2, n3, n4, n5⟩ := s3 ret h
          exact ⟨n1, n2, cursorLe_of_genLe (by left; simp) n3, n4, n5⟩
      · rename_i h2
        split
        · rename_i h3
          obtain ⟨s1, s2, s3⟩ := ih { g with slot := g.slot + 1 }
          refine ⟨s1, genLe_trans ?_ s2, ?_⟩
          · right; simp
          · intro ret h
            obtain ⟨n1, n2, n3, n4, n5⟩ := s3 ret h
            exact ⟨n1, n2, cursorLe_of_genLe (by right; simp) n3, n4, n5⟩
        · rename_i h3
          refine ⟨rfl, by right; simp, ?_⟩
          intro ret h
          have hret : ret = ⟨g.bus, g.slot, 0⟩ := by simpa using h.symm
          subst hret
          exact ⟨h3, rfl, by right; simp, rfl, rfl⟩

/-- `nextSlotFuel_spec` packaged for a hypothesis about `next_slot`. -/
theorem next_slot_spec {g : PciSlotGenerator} {res : Option PciSlot}
    {g2 : PciSlotGenerator} (h : g.next_slot = (res, g2)) :
    g2.skip = g.skip ∧ genLe g g2
      ∧ ∀ ret, res = some ret →
          ret ∉ g.skip ∧ ret.func = 0 ∧ cursorLe g ret
          ∧ ret.bus = g2.bus ∧ ret.slot + 1 = g2.slot := by
  have hs := nextSlotFuel_spec 8200 g
  unfold PciSlotGenerator.next_slot at h
  rw [h] at hs
  simpa using hs



/-- The running invariant of the slot-assignment pass of `build`: the slots
issued so far are pairwise distinct; each is either one of the consumed
reserved slots `usedX` or an auto-issued slot (function 0, strictly before
the cursor, and not among the declared slots `E0`); consumed reserved slots
and all of `E0` are in the generator skip list. -/
def SlotInv (E0 usedX issued : List PciSlot) (g : PciSlotGenerator) : Prop :=
  issued.Nodup
    ∧ (∀ x ∈ issued, x ∈ usedX ∨ (x.func = 0 ∧ posLt x g ∧ x ∉ E0))
    ∧ (∀ x ∈ usedX, x ∈ g.skip)
    ∧ (∀ x ∈ E0, x ∈ g.skip)

theorem SlotInv.auto {E0 usedX issued : List PciSlot} {g : PciSlotGenerator}
    {ret : PciSlot} {g2 : PciSlotGenerator}
    (h : SlotInv E0 usedX issued g) (hn : g.next_slot = (some ret, g2)) :
    SlotInv E0 usedX (issued ++ [ret]) g2 := by
  obtain ⟨hnd, hcl, hus, hes⟩ := h
  obtain ⟨hskip, hgle, hsome⟩ := next_slot_spec hn
  obtain ⟨hret_nskip, hfunc, hcur, hbus, hslot⟩ := hsome ret rfl
  have hposret : posLt ret g2 := by unfold posLt; omega
  refine ⟨?_, ?_, ?_, ?_⟩
  · rw [List.nodup_append]
    refine ⟨hnd, List.nodup_singleton ret, ?_⟩
    intro a ha hb
    rw [List.mem_singleton] at hb
    subst hb
    rcases hcl a ha with hx | ⟨_, hlt, _⟩
    · exact hret_nskip (hus a hx)
    · exact (ne_of_posLt_of_cursorLe hlt hcur) rfl
  · intro x hx
    rcases List.mem_append.mp hx with hx | hx
    · rcases hcl x hx with h1 | ⟨hf, hlt, hne⟩
      · exact Or.inl h1
      · exact Or.inr ⟨hf, posLt_of_genLe hlt hgle, hne⟩
    · rw [List.mem_singleton] at hx
      subst hx
      exact Or.inr ⟨hfunc, hposret, fun hmem => hret_nskip (hes x hmem)⟩
  · intro x hx
    rw [hskip]
    exact hus x hx
  · intro x hx
    rw [hskip]
    exact hes x hx

theorem SlotInv.explicit {E0 usedX issued : List PciSlot} {g : PciSlotGenerator}
    {e : PciSlot} (h : SlotInv E0 usedX issued g) (he : e ∈ E0) (hu : e ∉ usedX) :
    SlotInv E0 (usedX ++ [e]) (issued ++ [e]) g := by
  obtain ⟨hnd, hcl, hus, hes⟩ := h
  refine ⟨?_, ?_, ?_, hes⟩
  · rw [List.nodup_append]
    refine ⟨hnd, List.nodup_singleton e, ?_⟩
    intro a ha hb
    rw [List.mem_singleton] at hb
    subst hb
    rcases hcl a ha with hx | ⟨_, _, hne⟩
    · exact hu hx
    · exact hne he
  · intro x hx
    rcases List.mem_append.mp hx with hx | hx
    · rcases hcl x hx with h1 | h2
      · exact Or.inl (List.mem_append.mpr (Or.inl h1))
      · exact Or.inr h2
    · rw [List.mem_singleton] at hx
      subst hx
      exact Or.inl (List.mem_append.mpr (Or.inr (List.mem_singleton.mpr rfl)))
  · intro x hx
    rcases List.mem_append.mp hx with hx | hx
    · exact hus x hx
    · rw [List.mem_singleton] at hx
      subst hx
      exact hes _ he

theorem vec_exists_iff {α : Type} (xs : List α) (f : α → Bool) :
    vec_exists xs f = true ↔ ∃ x ∈ xs, f x = true := by
  induction xs with
  | nil => simp [vec_exists]
  | cons x rest ih =>
    unfold vec_exists
    by_cases h : f x = true
    · simp [h]
    · simp [h, ih]

theorem ttbs_spec {g : PciSlotGenerator} {b sl : Nat} {ret : PciSlot}
    {g2 : PciSlotGenerator}
    (h : g.try_take_specific_bus_slot b sl = (some ret, g2)) :
    g.next_slot = (some ret, g2)
      ∨ (ret = ⟨b, sl, 0⟩ ∧ g2 = { g with skip := g.skip ++ [ret] }
          ∧ (∀ x ∈ g.skip, ¬(x.bus = b ∧ x.slot = sl))
          ∧ cursorLe g ret) := by
  unfold PciSlotGenerator.try_take_specific_bus_slot at h
  split at h
  · simp at h
  · rename_i hguard
    split at h
    · exact Or.inl h
    · rename_i hcursor
      right
      push_neg at hguard
      obtain ⟨hv, hb1, hb2⟩ := hguard
      have h1 : ret = ⟨b, sl, 0⟩ := by
        simpa using (congrArg Prod.fst h).symm
      have h2 : g2 = { g with skip := g.skip ++ [(⟨b, sl, 0⟩ : PciSlot)] } := by
        simpa using (congrArg Prod.snd h).symm
      subst h1
      refine ⟨rfl, h2, ?_, ?_⟩
      · intro x hx hbs
        have : vec_exists g.skip (fun s => s.bus == b && s.slot == sl) = true := by
          rw [vec_exists_iff]
          exact ⟨x, hx, by simp [hbs.1, hbs.2]⟩
        simp [this] at hv
      · unfold cursorLe
        simp only []
        omega



theorem SlotInv.reserve {E0 usedX issued : List PciSlot} {g g2 : PciSlotGenerator}
    (h : SlotInv E0 usedX issued g)
    (hns : ∀ x ∈ g.skip, ¬(x.bus = 0 ∧ x.slot = 31))
    (hcur : cursorLe g ⟨0, 31, 0⟩)
    (hg2 : g2 = { g with skip := g.skip ++ [(⟨0, 31, 0⟩ : PciSlot)] }) :
    SlotInv E0 (usedX ++ [(⟨0, 31, 0⟩ : PciSlot)]) (issued ++ [(⟨0, 31, 0⟩ : PciSlot)]) g2
      ∧ (⟨0, 31, 0⟩ : PciSlot) ∉ E0 := by
  obtain ⟨hnd, hcl, hus, hes⟩ := h
  have hnotE0 : (⟨0, 31, 0⟩ : PciSlot) ∉ E0 := by
    intro hmem
    exact hns _ (hes _ hmem) ⟨rfl, rfl⟩
  have hposg2 : ∀ x : PciSlot, posLt x g → posLt x g2 := by
    intro x hx
    unfold posLt at *
    rw [hg2]
    exact hx
  refine ⟨⟨?_, ?_, ?_, ?_⟩, hnotE0⟩
  · rw [List.nodup_append]
    refine ⟨hnd, List.nodup_singleton _, ?_⟩
    intro a ha hb
    rw [List.mem_singleton] at hb
    rcases hcl a ha with hx | ⟨_, hlt, _⟩
    · exact hns _ (hus a hx) (by rw [hb]; exact ⟨rfl, rfl⟩)
    · exact (ne_of_posLt_of_cursorLe hlt hcur) hb
  · intro x hx
    rcases List.mem_append.mp hx with hx | hx
    · rcases hcl x hx with h1 | ⟨hf, hlt, hne⟩
      · exact Or.inl (List.mem_append.mpr (Or.inl h1))
      · exact Or.inr ⟨hf, hposg2 x hlt, hne⟩
    · rw [List.mem_singleton] at hx
      subst hx
      exact Or.inl (List.mem_append.mpr (Or.inr (List.mem_singleton.mpr rfl)))
  · intro x hx
    rw [hg2]
    rcases List.mem_append.mp hx with hx | hx
    · exact List.mem_append.mpr (Or.inl (hus x hx))
    · rw [List.mem_singleton] at hx
      subst hx
      exact List.mem_append.mpr (Or.inr (List.mem_singleton.mpr rfl))
  · intro x hx
    rw [hg2]
    exact List.mem_append.mpr (Or.inl (hes x hx))

theorem processEmus_inv (host : List PciDevice) (E0 : List PciSlot) :
    ∀ (rest : List Emulation) (g : PciSlotGenerator) (issued usedX : List PciSlot)
      (devs : List EmulatedPciDevice) (g2 : PciSlotGenerator),
      SlotInv E0 usedX issued g →
      (∀ e ∈ rest, ∀ sl, e.slot = some sl → sl ∈ E0) →
      (usedX ++ rest.filterMap (fun e => e.slot)).Nodup →
      processEmus host g rest = .ok (devs, g2) →
      SlotInv E0 (usedX ++ rest.filterMap (fun e => e.slot))
        (issued ++ devs.map (fun d => d.slot)) g2 := by
  intro rest
  induction rest with
  | nil =>
    intro g issued usedX devs g2 hinv hexp hnd hp
    unfold processEmus at hp
    simp only [Except.ok.injEq, Prod.mk.injEq] at hp
    obtain ⟨h1, h2⟩ := hp
    subst h1
    subst h2
    simpa using hinv
  | cons e rest ih =>
    intro g issued usedX devs g2 hinv hexp hnd hp
    unfold processEmus at hp
    cases hsl : e.slot with
    | some sl =>
      rw [hsl] at hp
      cases hemu : e.to_vm_emu host with
      | error err =>
        rw [hemu] at hp
        exact Except.noConfusion hp
      | ok emu =>
        simp only [hemu, Bind.bind, Except.bind] at hp
        cases hrec : processEmus host g rest with
        | error err =>
          rw [hrec] at hp
          exact Except.noConfusion hp
        | ok pr =>
          cases pr with
          | mk devs2 g3 =>
            simp only [hrec, Bind.bind, Except.bind] at hp
            simp only [Except.ok.injEq, Prod.mk.injEq] at hp
            obtain ⟨hd1, hd2⟩ := hp
            subst hd1
            subst hd2
            have hslE0 : sl ∈ E0 := hexp e (List.mem_cons_self e rest) sl hsl
            have hfm : (e :: rest).filterMap (fun e => e.slot)
                = sl :: rest.filterMap (fun e => e.slot) := by
              simp [List.filterMap_cons, hsl]
            rw [hfm] at hnd ⊢
            have hslnu : sl ∉ usedX := by
              rw [List.nodup_append] at hnd
              intro hcontra
              exact hnd.2.2 hcontra (List.mem_cons_self _ _)
            have hinv2 := hinv.explicit hslE0 hslnu
            have hnd2 : ((usedX ++ [sl]) ++ rest.filterMap (fun e => e.slot)).Nodup := by
              rw [List.append_assoc]
              simpa using hnd
            have := ih g (issued ++ [sl]) (usedX ++ [sl]) devs2 g3 hinv2
              (fun e2 he2 sl2 hsl2 => hexp e2 (List.mem_cons_of_mem e he2) sl2 hsl2)
              hnd2 hrec
            simpa [List.append_assoc] using this
    | none =>
      rw [hsl] at hp
      cases hn : g.next_slot with
      | mk opt gen1 =>
        rw [hn] at hp
        cases opt with
        | none => simp at hp
        | some s =>
          simp only [] at hp
          cases hemu : e.to_vm_emu host with
          | error err =>
        rw [hemu] at hp
        exact Except.noConfusion hp
          | ok emu =>
            simp only [hemu, Bind.bind, Except.bind] at hp
            cases hrec : processEmus host gen1 rest with
            | error err =>
          rw [hrec] at hp
          exact Except.noConfusion hp
            | ok pr =>
              cases pr with
              | mk devs2 g3 =>
                simp only [hrec, Bind.bind, Except.bind] at hp
                simp only [Except.ok.injEq, Prod.mk.injEq] at hp
                obtain ⟨hd1, hd2⟩ := hp
                subst hd1
                subst hd2
                have hfm : (e :: rest).filterMap (fun e => e.slot)
                    = rest.filterMap (fun e => e.slot) := by
                  simp [List.filterMap_cons, hsl]
                rw [hfm] at hnd ⊢
                have hinv2 := hinv.auto hn
                have := ih gen1 (issued ++ [s]) usedX devs2 g3 hinv2
                  (fun e2 he2 sl2 hsl2 => hexp e2 (List.mem_cons_of_mem e he2) sl2 hsl2)
                  hnd hrec
                simpa [List.append_assoc] using this



theorem addGraphic_inv {E0 usedX issued : List PciSlot} :
    ∀ {g : PciSlotGenerator} {go : Option GraphicOption}
      {devs : List EmulatedPciDevice} {g2 : PciSlotGenerator},
      SlotInv E0 usedX issued g → addGraphic g go = .ok (devs, g2) →
      SlotInv E0 usedX (issued ++ devs.map (fun d => d.slot)) g2 := by
  intro g go devs g2 hinv hp
  cases go with
  | none =>
    unfold addGraphic at hp
    simp only [Except.ok.injEq, Prod.mk.injEq] at hp
    obtain ⟨h1, h2⟩ := hp
    subst h1
    subst h2
    simpa using hinv
  | some graphic =>
    simp only [addGraphic] at hp
    cases hn : g.next_slot with
    | mk opt gen1 =>
      rw [hn] at hp
      cases opt with
      | none => exact Except.noConfusion hp
      | some slot =>
        simp only [] at hp
        by_cases hx : graphic.xhci_table
        · rw [if_pos hx] at hp
          cases hn2 : gen1.next_slot with
          | mk opt2 gen2 =>
            rw [hn2] at hp
            cases opt2 with
            | none => exact Except.noConfusion hp
            | some slot2 =>
              simp only [Except.ok.injEq, Prod.mk.injEq] at hp
              obtain ⟨h1, h2⟩ := hp
              subst h1
              subst h2
              have := (hinv.auto hn).auto hn2
              simpa [List.append_assoc] using this
        · rw [if_neg hx] at hp
          simp only [Except.ok.injEq, Prod.mk.injEq] at hp
          obtain ⟨h1, h2⟩ := hp
          subst h1
          subst h2
          simpa using hinv.auto hn



theorem tail_nodup (host : List PciDevice) (E0 : List PciSlot)
    (emulations : List Emulation) (graphic : Option GraphicOption)
    {gen2 gen3 gen4 : PciSlotGenerator} {usedX issued : List PciSlot}
    {emus gemus : List EmulatedPciDevice}
    (hinv : SlotInv E0 usedX issued gen2)
    (hexp : ∀ e ∈ emulations, ∀ sl, e.slot = some sl → sl ∈ E0)
    (hndA : (usedX ++ emulations.filterMap (fun e => e.slot)).Nodup)
    (hpe : processEmus host gen2 emulations = .ok (emus, gen3))
    (hag : addGraphic gen3 graphic = .ok (gemus, gen4)) :
    (issued ++ (emus ++ gemus).map (fun d => d.slot)).Nodup := by
  have h1 := processEmus_inv host E0 emulations gen2 issued usedX emus gen3 hinv hexp hndA hpe
  have h2 := addGraphic_inv h1 hag
  have h3 := h2.1
  simpa [List.append_assoc] using h3

/-- C3 (amended): for every `VmSpec` whose explicitly declared slots — the
emulation slots together with `lpc_slot` — are pairwise distinct as a
multiset, a successful `build` yields a `VmRun` in which the hostbridge slot,
the LPC slot and every emulated device slot are pairwise distinct. -/
theorem c3_explicit_distinct_nodup (host : List PciDevice) (s : VmSpec)
    (extra : List String) (r : VmRun)
    (hnd : (slotsTakenOf s).Nodup) (hb : s.build host extra = .ok r) :
    (runSlots r).Nodup := by
  unfold VmSpec.build at hb
  have htb : (PciSlotGenerator.build 0 0 (slotsTakenOf s)).try_take_specific_bus 0
      = (PciSlotGenerator.build 0 0 (slotsTakenOf s)).next_slot := by
    unfold PciSlotGenerator.try_take_specific_bus
    simp [PciSlotGenerator.build]
  rw [htb] at hb
  have inv0 : SlotInv (slotsTakenOf s) [] []
      (PciSlotGenerator.build 0 0 (slotsTakenOf s)) := by
    refine ⟨List.nodup_nil, ?_, ?_, ?_⟩ <;> simp [PciSlotGenerator.build]
  have hexp : ∀ e ∈ s.emulations, ∀ sl, e.slot = some sl → sl ∈ slotsTakenOf s := by
    intro e he sl hsl
    unfold slotsTakenOf
    exact List.mem_append.mpr (Or.inl (List.mem_filterMap.mpr ⟨e, he, hsl⟩))
  cases hn0 : (PciSlotGenerator.build 0 0 (slotsTakenOf s)).next_slot with
  | mk hOpt gen1 =>
    rw [hn0] at hb
    cases hOpt with
    | none => exact Except.noConfusion hb
    | some hsl =>
      dsimp only at hb
      have inv1 := inv0.auto hn0
      cases hls : s.lpc_slot with
      | some l =>
        rw [hls] at hb
        dsimp only at hb
        have hlE0 : l ∈ slotsTakenOf s := by
          unfold slotsTakenOf
          rw [hls]
          exact List.mem_append.mpr (Or.inr (by simp))
        have inv2 := inv1.explicit hlE0 (by simp)
        have hndA : (([] ++ [l]) ++ s.emulations.filterMap (fun e : Emulation => e.slot)).Nodup := by
          unfold slotsTakenOf at hnd
          rw [hls] at hnd
          have hperm :=
            @List.perm_append_comm _ (s.emulations.filterMap (fun e : Emulation => e.slot)) [l]
          simpa using hperm.nodup hnd
        cases hpe : processEmus host gen1 s.emulations with
        | error err =>
          rw [hpe] at hb
          exact Except.noConfusion hb
        | ok pr =>
          cases pr with
          | mk emus gen3 =>
            rw [hpe] at hb
            dsimp only at hb
            cases hag : addGraphic gen3 s.graphic with
            | error err =>
              rw [hag] at hb
              exact Except.noConfusion hb
            | ok pr2 =>
              cases pr2 with
              | mk gemus gen4 =>
                rw [hag] at hb
                dsimp only at hb
                simp only [Except.ok.injEq] at hb
                subst hb
                have := tail_nodup host (slotsTakenOf s) s.emulations s.graphic
                  inv2 hexp hndA hpe hag
                simpa [runSlots] using this
      | none =>
        rw [hls] at hb
        cases htt : gen1.try_take_specific_bus_slot 0 31 with
        | mk lOpt gen2 =>
          rw [htt] at hb
          cases lOpt with
          | none => exact Except.noConfusion hb
          | some l =>
            dsimp only at hb
            have hfm : slotsTakenOf s = s.emulations.filterMap (fun e => e.slot) := by
              unfold slotsTakenOf
              rw [hls]
              simp
            rcases ttbs_spec htt with hauto | ⟨hret, hg2, hns, hcur⟩
            · -- LPC issued like an auto slot
              have inv2 := inv1.auto hauto
              have hndA : (([] : List PciSlot)
                  ++ s.emulations.filterMap (fun e => e.slot)).Nodup := by
                rw [hfm] at hnd
                simpa using hnd
              cases hpe : processEmus host gen2 s.emulations with
              | error err =>
                rw [hpe] at hb
                exact Except.noConfusion hb
              | ok pr =>
                cases pr with
                | mk emus gen3 =>
                  rw [hpe] at hb
                  dsimp only at hb
                  cases hag : addGraphic gen3 s.graphic with
                  | error err =>
                    rw [hag] at hb
                    exact Except.noConfusion hb
                  | ok pr2 =>
                    cases pr2 with
                    | mk gemus gen4 =>
                      rw [hag] at hb
                      dsimp only at hb
                      simp only [Except.ok.injEq] at hb
                      subst hb
                      have := tail_nodup host (slotsTakenOf s) s.emulations s.graphic
                        inv2 hexp hndA hpe hag
                      simpa [runSlots] using this
            · -- LPC reserved at (0, 31)
              subst hret
              have hres := SlotInv.reserve inv1 hns hcur hg2
              have inv2 := hres.1
              have hnotE0 := hres.2
              have hndA : (([] ++ [(⟨0, 31, 0⟩ : PciSlot)])
                  ++ s.emulations.filterMap (fun e : Emulation => e.slot)).Nodup := by
                rw [List.nodup_append]
                refine ⟨by simp, by rw [hfm] at hnd; simpa using hnd, ?_⟩
                intro a ha hb2
                simp at ha
                subst ha
                apply hnotE0
                rw [hfm]
                exact hb2
              cases hpe : processEmus host gen2 s.emulations with
              | error err =>
                rw [hpe] at hb
                exact Except.noConfusion hb
              | ok pr =>
                cases pr with
                | mk emus gen3 =>
                  rw [hpe] at hb
                  dsimp only at hb
                  cases hag : addGraphic gen3 s.graphic with
                  | error err =>
                    rw [hag] at hb
                    exact Except.noConfusion hb
                  | ok pr2 =>
                    cases pr2 with
                    | mk gemus gen4 =>
                      rw [hag] at hb
                      dsimp only at hb
                      simp only [Except.ok.injEq] at hb
                      subst hb
                      have := tail_nodup host (slotsTakenOf s) s.emulations s.graphic
                        inv2 hexp hndA hpe hag
                      simpa [runSlots] using this


/-- C3 counterexample: two emulations may declare the same explicit slot
`0:5:0`; `build` succeeds and the compiled `VmRun` carries the duplicate, so
the claim as stated — covering explicit slots equal to each other — is false. -/
theorem c3_counterexample :
    (c3Spec.build [] []).map runSlots
        = .ok [⟨0, 0, 0⟩, ⟨0, 31, 0⟩, ⟨0, 5, 0⟩, ⟨0, 5, 0⟩]
      ∧ ¬ ([(⟨0, 0, 0⟩ : PciSlot), ⟨0, 31, 0⟩, ⟨0, 5, 0⟩, ⟨0, 5, 0⟩] : List PciSlot).Nodup :=
  ⟨rfl, by decide⟩

/-- Witness for the amended C3 at the S1 configuration. -/
theorem c3_explicit_distinct_nodup_witness :
    (slotsTakenOf (s1SpecWith ⟨0, 5, 0⟩)).Nodup ∧ (runSlots s1Run).Nodup :=
  ⟨by decide,
    c3_explicit_distinct_nodup [] (s1SpecWith ⟨0, 5, 0⟩) [] s1Run (by decide) rfl⟩

end Vmrun
